import Mathlib

/-!
Shallow embedding of `ckanext/datastore_search/backend/solr.py`
(class `DatastoreSolrBackend`).

The remote SOLR server is modelled as an environment (oracle) giving the
outcome of each remote call; the embedding records the trace of
schema-mutation calls (`add-field`, `replace-field`, `delete-field`) and
of document-level calls (add, delete-by-query, commit, core unload), and
computes the Python return value or the raised exception.

Machine-level Python behaviour that matters here is modelled explicitly:
`errmsg` is a local variable only assigned on some paths, so referencing
it on other paths raises `UnboundLocalError`; a missing key in
`field_type_map` raises `KeyError`; Python `dict` updates overwrite in
place, keeping the original insertion position.
-/

namespace DatastoreSolrBackend

/-- A DataStore (desired) field: `{id: ..., type: ...}` as consumed from
`data_dict['fields']`. -/
structure DSField where
  id : String
  type : String

deriving instance DecidableEq for DSField

/-- A SOLR schema field as returned by the `schema/fields` read: a JSON
object with at least `name` and `type`; `extra` keeps every other
attribute of the object (e.g. `stored`, `indexed`, `docValues`). -/
structure SolrField where
  name : String
  type : String
  stored : Bool
  indexed : Bool
  extra : List (String × String)

deriving instance DecidableEq for SolrField

/-- Python value returned by a backend method: the source returns `None`
on every path; `pyBool` exists so that claims about boolean returns are
statable. -/
inductive PyValue
  | pyNone
  | pyBool (b : Bool)

deriving instance DecidableEq for PyValue

/-- A raised Python exception, as far as the claims need to distinguish:
`dsExc` is `DatastoreSearchException`, `keyError` a `KeyError` from a
dict subscript, `unboundLocal` an `UnboundLocalError` on a local variable
referenced before assignment. -/
inductive PyErr
  | dsExc (msg : String)
  | keyError (key : String)
  | unboundLocal (var : String)

deriving instance DecidableEq for PyErr

/-- A schema-mutation request sent to the SOLR schema API. -/
inductive SchemaCall
  | addField (f : SolrField)
  | replaceField (f : SolrField)
  | deleteField (name : String)

deriving instance DecidableEq for SchemaCall

/-- Outcome of one remote schema-mutation call, as observed by the code:
the request may raise `pysolr.SolrError` (with `e.args[0]` = `msg`), or
return a response containing an `error` object (with optional `msg`
entry), or succeed. -/
inductive CallResult
  | ok
  | solrError (msg : String)
  | errorResp (msg : Option String)

deriving instance DecidableEq for CallResult

instance {ε α : Type} [DecidableEq ε] [DecidableEq α] :
    DecidableEq (Except ε α) := fun x y =>
  match x, y with
  | Except.ok a, Except.ok b =>
    if h : a = b then isTrue (by rw [h])
    else isFalse (fun hc => h (Except.ok.inj hc))
  | Except.error a, Except.error b =>
    if h : a = b then isTrue (by rw [h])
    else isFalse (fun hc => h (Except.error.inj hc))
  | Except.ok _, Except.error _ => isFalse (fun hc => Except.noConfusion hc)
  | Except.error _, Except.ok _ => isFalse (fun hc => Except.noConfusion hc)

/-- `MAX_ERR_LEN = 1000` (line 15 of the source). -/
def MAX_ERR_LEN : Nat := 1000

/-- `default_solr_fields = ['_id', '_version_', 'indexed_ts']`. -/
def default_solr_fields : List String := ["_id", "_version_", "indexed_ts"]

/-- `field_type_map` property: DataStore type name to SOLR field type;
a missing key raises `KeyError`, modelled by `none`. -/
def field_type_map : String → Option String
  | "smallint" => some "int"
  | "integer" => some "int"
  | "bigint" => some "int"
  | "decimal" => some "float"
  | "numeric" => some "float"
  | "real" => some "double"
  | "double precision" => some "double"
  | "smallserial" => some "int"
  | "serial" => some "int"
  | "bigserial" => some "int"
  | "money" => some "float"
  | "character varying" => some "text"
  | "varchar" => some "text"
  | "character" => some "text"
  | "char" => some "text"
  | "bpchar" => some "text"
  | "text" => some "text"
  | "bytea" => some "binary"
  | "timestamp" => some "date"
  | "date" => some "date"
  | "time" => some "date"
  | "interval" => some "date"
  | "boolean" => some "boolean"
  | _ => none

/-- Python dict assignment `d[k] = v`: overwrite in place if the key is
present (keeping its insertion position), else append. -/
def dictInsert (d : List (String × SolrField)) (k : String) (v : SolrField) :
    List (String × SolrField) :=
  match d with
  | [] => [(k, v)]
  | (k0, v0) :: rest =>
    if k0 = k then (k, v) :: rest else (k0, v0) :: dictInsert rest k v

/-- Python dict subscript read `d[k]` / `k in d`: first (unique) match. -/
def dictLookup (d : List (String × SolrField)) (k : String) : Option SolrField :=
  match d with
  | [] => none
  | (k0, v0) :: rest => if k0 = k then some v0 else dictLookup rest k

/-- Lines 139-143: build `keyed_solr_fields` from the live schema,
skipping `default_solr_fields` members. -/
def buildKeyed (live : List SolrField) : List (String × SolrField) :=
  live.foldl
    (fun d f => if f.name ∈ default_solr_fields then d else dictInsert d f.name f)
    []

/-- Lines 144-162: one pass over `data_dict['fields']` building
`ds_field_ids`, `new_fields` and `updated_fields`; a type with no entry
in `field_type_map` raises `KeyError` at the first field that hits it. -/
def classify (keyed : List (String × SolrField)) :
    List DSField → Except PyErr (List String × List SolrField × List SolrField)
  | [] => Except.ok ([], [], [])
  | df :: rest =>
    let idContrib : List String :=
      if df.id ∈ default_solr_fields then [] else [df.id]
    match dictLookup keyed df.id with
    | none =>
      match field_type_map df.type with
      | none => Except.error (PyErr.keyError df.type)
      | some mt =>
        match classify keyed rest with
        | Except.error e => Except.error e
        | Except.ok (ids, news, upds) =>
          Except.ok (idContrib ++ ids,
            { name := df.id, type := mt, stored := true, indexed := true,
              extra := [] } :: news,
            upds)
    | some sf =>
      match field_type_map df.type with
      | none => Except.error (PyErr.keyError df.type)
      | some mt =>
        if mt = sf.type then
          match classify keyed rest with
          | Except.error e => Except.error e
          | Except.ok (ids, news, upds) =>
            Except.ok (idContrib ++ ids, news, upds)
        else
          match classify keyed rest with
          | Except.error e => Except.error e
          | Except.ok (ids, news, upds) =>
            Except.ok (idContrib ++ ids, news,
              { sf with type := mt } :: upds)

/-- Lines 163-164: `remove_fields` names, in `keyed_solr_fields` key
order, of live keys absent from `ds_field_ids`. -/
def removeNames (keyed : List (String × SolrField)) (ids : List String) :
    List String :=
  (keyed.map Prod.fst).filter (fun k => decide (k ∉ ids))

/-- The full planned sequence of schema-mutation calls: all adds, then
all replaces, then all deletes (the three loops of lines 166-212). -/
def plannedCalls (keyed : List (String × SolrField)) (ids : List String)
    (news upds : List SolrField) : List SchemaCall :=
  news.map SchemaCall.addField ++ upds.map SchemaCall.replaceField
    ++ (removeNames keyed ids).map SchemaCall.deleteField

/-- Translate a failed remote schema-mutation call to the raised
`DatastoreSearchException` (the `except pysolr.SolrError` clause and the
`if 'error' in resp` check of lines 169-212); `none` for a successful
call. `errmsgFor` is the per-field `errmsg` bound at the top of each
loop body. -/
def errmsgFor (core : String) : SchemaCall → String
  | SchemaCall.addField f =>
    "Could not add field " ++ f.name ++ " to SOLR Schema " ++ core
  | SchemaCall.replaceField f =>
    "Could not update field " ++ f.name ++ " on SOLR Schema " ++ core
  | SchemaCall.deleteField n =>
    "Could not delete field " ++ n ++ " from SOLR Schema " ++ core

/-- Outcome-to-exception translation for one schema-mutation call. -/
def mutFail (debug : Bool) (core : String) (c : SchemaCall) :
    CallResult → Option PyErr
  | CallResult.ok => none
  | CallResult.solrError m =>
    some (PyErr.dsExc (if debug then m.take MAX_ERR_LEN else errmsgFor core c))
  | CallResult.errorResp mo =>
    some (PyErr.dsExc
      (if debug then ((mo.getD (errmsgFor core c)).take MAX_ERR_LEN)
       else errmsgFor core c))

/-- Run the three mutation loops over the planned call sequence: each
call is sent, and the first failure raises, leaving earlier calls
applied (the returned list is the trace of calls actually sent). -/
def applyCalls (debug : Bool) (core : String)
    (mutate : SchemaCall → CallResult) :
    List SchemaCall → List SchemaCall × Option PyErr
  | [] => ([], none)
  | c :: rest =>
    match mutFail debug core c (mutate c) with
    | none =>
      let r := applyCalls debug core mutate rest
      (c :: r.1, r.2)
    | some e => ([c], some e)

/-- Environment of one `create` call: outcomes of the remote operations
it may perform. `connect0` is whether a usable connection exists at entry
(either the `connection` argument was given or the first
`_make_connection` succeeded); `createResp` is the admin core-create
response (`some mo` when the response carries an `error` object whose
optional `msg` is `mo`); `reconnect` is the second `_make_connection`
outcome; `schemaRead` is the `schema/fields` read (`Except.error m` for a
`pysolr.SolrError` with `e.args[0] = m`); `mutate` gives each
schema-mutation call's outcome. -/
structure CreateEnv where
  connect0 : Bool
  createResp : Option (Option String)
  reconnect : Bool
  schemaRead : Except String (List SolrField)
  mutate : SchemaCall → CallResult

/-- Result of a `create` call: the Python return value or raised
exception, and the trace of schema-mutation calls sent. -/
structure CreateResult where
  result : Except PyErr PyValue
  calls : List SchemaCall

/-- Lines 116-131: establish a connection, creating the core when absent.
On success, returns the binding state of the local variable `errmsg`
(`some s` when line 118 executed, `none` when the branch was skipped and
`errmsg` stays unassigned). -/
def connPhase (debug : Bool) (core : String) (env : CreateEnv) :
    Except PyErr (Option String) :=
  if env.connect0 then Except.ok none
  else
    let errmsg := "Could not create SOLR core " ++ core
    match env.createResp with
    | some mo =>
      Except.error (PyErr.dsExc
        (if debug then ((mo.getD errmsg).take MAX_ERR_LEN) else errmsg))
    | none =>
      if env.reconnect then Except.ok (some errmsg)
      else Except.error
        (PyErr.dsExc ("Could not connect to SOLR core " ++ core))

/-- Lines 136-138: exception raised when the schema read fails. With
debug off the code evaluates `errmsg`, which on the pre-connected path
was never assigned: `UnboundLocalError`. -/
def readFail (debug : Bool) (errmsgB : Option String) (m : String) : PyErr :=
  if debug then PyErr.dsExc (m.take MAX_ERR_LEN)
  else
    match errmsgB with
    | some s => PyErr.dsExc s
    | none => PyErr.unboundLocal "errmsg"

/-- `DatastoreSolrBackend.create` (lines 107-221): connect (creating the
core if needed), read the live schema, classify the desired fields into
adds/updates and compute removals, then send add-field, replace-field
and delete-field requests in that order, fail-fast. Returns `None` on
every successful path. -/
def create (debug : Bool) (pfx rid : String) (fields : List DSField)
    (env : CreateEnv) : CreateResult :=
  let core := pfx ++ rid
  match connPhase debug core env with
  | Except.error e => ⟨Except.error e, []⟩
  | Except.ok errmsgB =>
    match env.schemaRead with
    | Except.error m => ⟨Except.error (readFail debug errmsgB m), []⟩
    | Except.ok live =>
      match classify (buildKeyed live) fields with
      | Except.error e => ⟨Except.error e, []⟩
      | Except.ok (ids, news, upds) =>
        let r := applyCalls debug core env.mutate
          (plannedCalls (buildKeyed live) ids news upds)
        match r.2 with
        | some e => ⟨Except.error e, r.1⟩
        | none => ⟨Except.ok PyValue.pyNone, r.1⟩

/-- An indexed document (record). Its contents are opaque to the code
(each record dict is handed to `conn.add` unchanged), so it is modelled
as an opaque token. -/
abbrev Rec := String

/-- A document-level remote call: `conn.add(docs=[r], commit=...)`,
`conn.commit(waitSearcher=...)`, `conn.delete(q=..., commit=...)`, and
the admin core unload request. -/
inductive DocCall
  | add (doc : Rec) (commit : Bool)
  | commitCall (waitSearcher : Bool)
  | deleteQ (q : String) (commit : Bool)
  | unloadCore (core : String)

deriving instance DecidableEq for DocCall

/-- Environment of one `upsert` call. `addResult i` is the outcome of the
`conn.add` call for the i-th record (`none` = success, `some m` =
`pysolr.SolrError` with `e.args[0] = m`); the other components drive the
lazy core-provisioning path taken when no connection exists. -/
structure UpsertEnv where
  connect0 : Bool
  dsFields : List DSField
  createEnv : CreateEnv
  reconnect : Bool
  addResult : Nat → Option String

/-- Result of an `upsert` call: return value or exception, the
schema-mutation calls of any nested `create`, and the document calls. -/
structure UpsertResult where
  result : Except PyErr PyValue
  schemaCalls : List SchemaCall
  docCalls : List DocCall

/-- Lines 232-245: connection handling of `upsert` — on a missing
connection, fetch the DataStore fields, provision the core via `create`,
and reconnect; raise when still unconnected. -/
def upsertConnPhase (debug : Bool) (pfx rid : String) (env : UpsertEnv) :
    Except PyErr Unit × List SchemaCall :=
  if env.connect0 then (Except.ok (), [])
  else
    let cr := create debug pfx rid
      (env.dsFields.filter (fun f => decide (f.id ∉ default_solr_fields)))
      env.createEnv
    match cr.result with
    | Except.error e => (Except.error e, cr.calls)
    | Except.ok _ =>
      if env.reconnect then (Except.ok (), cr.calls)
      else (Except.error
        (PyErr.dsExc ("Failed to index records for " ++ (pfx ++ rid))),
        cr.calls)

/-- Lines 250-256: the per-record add loop, each record in one
`conn.add(docs=[r], commit=False)` call, fail-fast. The `Nat` argument
is the index of the next record (used to address `addResult`). -/
def upsertLoop (debug : Bool) (core : String)
    (addResult : Nat → Option String) :
    Nat → List Rec → List DocCall × Option PyErr
  | _, [] => ([], none)
  | i, r :: rest =>
    match addResult i with
    | none =>
      let t := upsertLoop debug core addResult (i + 1) rest
      (DocCall.add r false :: t.1, t.2)
    | some m =>
      ([DocCall.add r false],
       some (PyErr.dsExc
         (if debug then m.take MAX_ERR_LEN
          else "Failed to index records for " ++ core)))

/-- `DatastoreSolrBackend.upsert` (lines 223-257). -/
def upsert (debug : Bool) (pfx rid : String) (records : List Rec)
    (env : UpsertEnv) : UpsertResult :=
  let core := pfx ++ rid
  match upsertConnPhase debug pfx rid env with
  | (Except.error e, sc) => ⟨Except.error e, sc, []⟩
  | (Except.ok _, sc) =>
    if records = [] then ⟨Except.ok PyValue.pyNone, sc, []⟩
    else
      let t := upsertLoop debug core env.addResult 0 records
      match t.2 with
      | some e => ⟨Except.error e, sc, t.1⟩
      | none =>
        ⟨Except.ok PyValue.pyNone, sc, t.1 ++ [DocCall.commitCall false]⟩

/-- Environment of one `delete` call: `wipeResult` is the outcome of the
full `conn.delete(q='*:*', commit=False)` wipe, `unloadResp` of the
admin unload request, and `delResult i` of the i-th filtered
`conn.delete` call. -/
structure DeleteEnv where
  connect0 : Bool
  wipeResult : Option String
  unloadResp : Option (Option String)
  delResult : Nat → Option String

/-- Result of a `delete` call. -/
structure DeleteResult where
  result : Except PyErr PyValue
  docCalls : List DocCall

/-- Lines 308-316: the per-filter delete loop — one
`conn.delete(q='key:value', commit=False)` per filter pair, fail-fast,
and no commit afterwards. -/
def deleteLoop (debug : Bool) (core : String)
    (delResult : Nat → Option String) :
    Nat → List (String × String) → List DocCall × Option PyErr
  | _, [] => ([], none)
  | i, (k, v) :: rest =>
    match delResult i with
    | none =>
      let t := deleteLoop debug core delResult (i + 1) rest
      (DocCall.deleteQ (k ++ ":" ++ v) false :: t.1, t.2)
    | some m =>
      ([DocCall.deleteQ (k ++ ":" ++ v) false],
       some (PyErr.dsExc
         (if debug then m.take MAX_ERR_LEN
          else "Could not delete records " ++ k ++ "," ++ v
            ++ " in SOLR core " ++ core)))

/-- `DatastoreSolrBackend.delete` (lines 278-316). `filters` models
`data_dict['filters']` as an insertion-ordered mapping. -/
def delete (debug : Bool) (pfx rid : String)
    (filters : List (String × String)) (env : DeleteEnv) : DeleteResult :=
  let core := pfx ++ rid
  if ¬ env.connect0 then ⟨Except.ok PyValue.pyNone, []⟩
  else if filters = [] then
    let errmsg := "Could not delete SOLR core " ++ core
    match env.wipeResult with
    | some m =>
      ⟨Except.error
        (PyErr.dsExc (if debug then m.take MAX_ERR_LEN else errmsg)),
       [DocCall.deleteQ "*:*" false]⟩
    | none =>
      match env.unloadResp with
      | some mo =>
        ⟨Except.error
          (PyErr.dsExc
            (if debug then ((mo.getD errmsg).take MAX_ERR_LEN) else errmsg)),
         [DocCall.deleteQ "*:*" false, DocCall.commitCall false,
          DocCall.unloadCore core]⟩
      | none =>
        ⟨Except.ok PyValue.pyNone,
         [DocCall.deleteQ "*:*" false, DocCall.commitCall false,
          DocCall.unloadCore core]⟩
  else
    let t := deleteLoop debug core env.delResult 0 filters
    match t.2 with
    | some e => ⟨Except.error e, t.1⟩
    | none => ⟨Except.ok PyValue.pyNone, t.1⟩

theorem mutFail_eq_none_iff (debug : Bool) (core : String) (c : SchemaCall)
    (r : CallResult) : mutFail debug core c r = none ↔ r = CallResult.ok := by
  cases r <;> simp [mutFail]

theorem applyCalls_all_ok (debug : Bool) (core : String)
    (mutate : SchemaCall → CallResult) (cs : List SchemaCall)
    (h : ∀ c ∈ cs, mutate c = CallResult.ok) :
    applyCalls debug core mutate cs = (cs, none) := by
  induction cs with
  | nil => rfl
  | cons c rest ih =>
    have hc : mutate c = CallResult.ok := h c (List.mem_cons_self c rest)
    have hr : ∀ x ∈ rest, mutate x = CallResult.ok :=
      fun x hx => h x (List.mem_cons_of_mem c hx)
    simp [applyCalls, hc, mutFail, ih hr]

theorem applyCalls_fail (debug : Bool) (core : String)
    (mutate : SchemaCall → CallResult) (pre : List SchemaCall)
    (c : SchemaCall) (post : List SchemaCall)
    (hpre : ∀ x ∈ pre, mutate x = CallResult.ok)
    (hc : mutate c ≠ CallResult.ok) :
    ∃ e, mutFail debug core c (mutate c) = some e ∧
      applyCalls debug core mutate (pre ++ c :: post) = (pre ++ [c], some e) := by
  induction pre with
  | nil =>
    cases hm : mutFail debug core c (mutate c) with
    | none => exact absurd ((mutFail_eq_none_iff debug core c _).mp hm) hc
    | some e => exact ⟨e, rfl, by simp [applyCalls, hm]⟩
  | cons x xs ih =>
    have hx : mutate x = CallResult.ok := hpre x (List.mem_cons_self x xs)
    obtain ⟨e, he, happ⟩ := ih (fun y hy => hpre y (List.mem_cons_of_mem x hy))
    exact ⟨e, he, by simp [applyCalls, hx, mutFail, happ]⟩

theorem applyCalls_trace_subset (debug : Bool) (core : String)
    (mutate : SchemaCall → CallResult) (cs : List SchemaCall) :
    ∀ x ∈ (applyCalls debug core mutate cs).1, x ∈ cs := by
  induction cs with
  | nil => simp [applyCalls]
  | cons c rest ih =>
    intro x hx
    cases hm : mutFail debug core c (mutate c) with
    | none =>
      simp only [applyCalls, hm] at hx
      rcases List.mem_cons.mp hx with h | h
      · exact h ▸ List.mem_cons_self c rest
      · exact List.mem_cons_of_mem c (ih x h)
    | some e =>
      simp only [applyCalls, hm, List.mem_singleton] at hx
      exact hx ▸ List.mem_cons_self c rest

theorem mem_dictInsert (d : List (String × SolrField)) (k : String)
    (v : SolrField) (p : String × SolrField) (hp : p ∈ dictInsert d k v) :
    p ∈ d ∨ p = (k, v) := by
  induction d with
  | nil =>
    simp [dictInsert] at hp
    exact Or.inr hp
  | cons q rest ih =>
    obtain ⟨k0, v0⟩ := q
    by_cases h : k0 = k
    · simp only [dictInsert, if_pos h] at hp
      rcases List.mem_cons.mp hp with h1 | h1
      · exact Or.inr h1
      · exact Or.inl (List.mem_cons_of_mem _ h1)
    · simp only [dictInsert, if_neg h] at hp
      rcases List.mem_cons.mp hp with h1 | h1
      · exact Or.inl (h1 ▸ List.mem_cons_self _ _)
      · rcases ih h1 with h2 | h2
        · exact Or.inl (List.mem_cons_of_mem _ h2)
        · exact Or.inr h2

theorem buildKeyed_spec (live : List SolrField) :
    ∀ p ∈ buildKeyed live, p.2.name = p.1 ∧ p.1 ∉ default_solr_fields := by
  have main : ∀ (l : List SolrField) (acc : List (String × SolrField)),
      (∀ p ∈ acc, p.2.name = p.1 ∧ p.1 ∉ default_solr_fields) →
      ∀ p ∈ l.foldl
        (fun d f =>
          if f.name ∈ default_solr_fields then d else dictInsert d f.name f)
        acc,
        p.2.name = p.1 ∧ p.1 ∉ default_solr_fields := by
    intro l
    induction l with
    | nil =>
      intro acc hacc p hp
      simp only [List.foldl_nil] at hp
      exact hacc p hp
    | cons f rest ih =>
      intro acc hacc p hp
      simp only [List.foldl_cons] at hp
      by_cases hf : f.name ∈ default_solr_fields
      · rw [if_pos hf] at hp
        exact ih acc hacc p hp
      · rw [if_neg hf] at hp
        refine ih _ ?_ p hp
        intro q hq
        rcases mem_dictInsert _ _ _ q hq with h | h
        · exact hacc q h
        · rw [h]
          exact ⟨rfl, hf⟩
  intro p hp
  exact main live [] (by simp) p hp

theorem dictLookup_mem (d : List (String × SolrField)) (k : String)
    (v : SolrField) (h : dictLookup d k = some v) : (k, v) ∈ d := by
  induction d with
  | nil => simp [dictLookup] at h
  | cons q rest ih =>
    obtain ⟨k0, v0⟩ := q
    by_cases hk : k0 = k
    · simp only [dictLookup, if_pos hk] at h
      have : v0 = v := Option.some.inj h
      rw [← hk, ← this]
      exact List.mem_cons_self _ _
    · simp only [dictLookup, if_neg hk] at h
      exact List.mem_cons_of_mem _ (ih h)

theorem classify_error_of_unmapped (keyed : List (String × SolrField))
    (fields : List DSField)
    (h : ∃ df ∈ fields, field_type_map df.type = none) :
    ∃ e, classify keyed fields = Except.error e := by
  induction fields with
  | nil => simp at h
  | cons df rest ih =>
    rcases h with ⟨df0, hmem, hnone⟩
    rcases List.mem_cons.mp hmem with heq | hmem0
    · subst heq
      cases hlk : dictLookup keyed df0.id with
      | none => exact ⟨PyErr.keyError df0.type, by simp [classify, hlk, hnone]⟩
      | some sf => exact ⟨PyErr.keyError df0.type, by simp [classify, hlk, hnone]⟩
    · cases hmt : field_type_map df.type with
      | none =>
        cases hlk : dictLookup keyed df.id with
        | none => exact ⟨PyErr.keyError df.type, by simp [classify, hlk, hmt]⟩
        | some sf => exact ⟨PyErr.keyError df.type, by simp [classify, hlk, hmt]⟩
      | some mt =>
        obtain ⟨e, he⟩ := ih ⟨df0, hmem0, hnone⟩
        cases hlk : dictLookup keyed df.id with
        | none => exact ⟨e, by simp [classify, hlk, hmt, he]⟩
        | some sf =>
          by_cases hty : mt = sf.type
          · exact ⟨e, by simp [classify, hlk, hmt, hty, he]⟩
          · exact ⟨e, by simp [classify, hlk, hmt, hty, he]⟩

theorem classify_cons_inv (keyed : List (String × SolrField)) (df0 : DSField)
    (rest : List DSField) (ids : List String) (news upds : List SolrField)
    (h : classify keyed (df0 :: rest) = Except.ok (ids, news, upds)) :
    ∃ ids0 news0 upds0,
      classify keyed rest = Except.ok (ids0, news0, upds0) ∧
      ids = (if df0.id ∈ default_solr_fields then [] else [df0.id]) ++ ids0 ∧
      ((∃ mt, dictLookup keyed df0.id = none ∧
          field_type_map df0.type = some mt ∧
          news = { name := df0.id, type := mt, stored := true, indexed := true,
                   extra := [] } :: news0 ∧ upds = upds0) ∨
       (∃ sf, dictLookup keyed df0.id = some sf ∧
          field_type_map df0.type = some sf.type ∧
          news = news0 ∧ upds = upds0) ∨
       (∃ sf mt, dictLookup keyed df0.id = some sf ∧
          field_type_map df0.type = some mt ∧ mt ≠ sf.type ∧
          news = news0 ∧
          upds = { name := sf.name, type := mt, stored := sf.stored,
                   indexed := sf.indexed, extra := sf.extra } :: upds0)) := by
  cases hlk : dictLookup keyed df0.id with
  | none =>
    cases hmt : field_type_map df0.type with
    | none => simp [classify, hlk, hmt] at h
    | some mt =>
      cases hc : classify keyed rest with
      | error e => simp [classify, hlk, hmt, hc] at h
      | ok triple =>
        obtain ⟨ids0, news0, upds0⟩ := triple
        simp only [classify, hlk, hmt, hc, Except.ok.injEq,
          Prod.mk.injEq] at h
        obtain ⟨hid, hnews, hupds⟩ := h
        exact ⟨ids0, news0, upds0, rfl, hid.symm,
          Or.inl ⟨mt, rfl, rfl, hnews.symm, hupds.symm⟩⟩
  | some sf =>
    cases hmt : field_type_map df0.type with
    | none => simp [classify, hlk, hmt] at h
    | some mt =>
      by_cases hty : mt = sf.type
      · cases hc : classify keyed rest with
        | error e => simp [classify, hlk, hmt, hty, hc] at h
        | ok triple =>
          obtain ⟨ids0, news0, upds0⟩ := triple
          simp only [classify, hlk, hmt, if_pos hty, hc, Except.ok.injEq,
            Prod.mk.injEq] at h
          obtain ⟨hid, hnews, hupds⟩ := h
          exact ⟨ids0, news0, upds0, rfl, hid.symm,
            Or.inr (Or.inl ⟨sf, rfl, congrArg some hty,
              hnews.symm, hupds.symm⟩)⟩
      · cases hc : classify keyed rest with
        | error e => simp [classify, hlk, hmt, hty, hc] at h
        | ok triple =>
          obtain ⟨ids0, news0, upds0⟩ := triple
          simp only [classify, hlk, hmt, if_neg hty, hc, Except.ok.injEq,
            Prod.mk.injEq] at h
          obtain ⟨hid, hnews, hupds⟩ := h
          exact ⟨ids0, news0, upds0, rfl, hid.symm,
            Or.inr (Or.inr ⟨sf, mt, rfl, rfl, hty, hnews.symm, hupds.symm⟩)⟩

theorem classify_ok_ids (keyed : List (String × SolrField))
    (fields : List DSField) (ids : List String) (news upds : List SolrField)
    (h : classify keyed fields = Except.ok (ids, news, upds)) :
    ∀ df ∈ fields, df.id ∉ default_solr_fields → df.id ∈ ids := by
  induction fields generalizing ids news upds with
  | nil =>
    intro df hmem
    simp at hmem
  | cons df0 rest ih =>
    intro df hmem hdef
    obtain ⟨ids0, news0, upds0, hc, hid, _⟩ :=
      classify_cons_inv keyed df0 rest ids news upds h
    rcases List.mem_cons.mp hmem with heq | hmem0
    · subst heq
      rw [hid]
      simp [hdef]
    · have := ih ids0 news0 upds0 hc df hmem0 hdef
      rw [hid]
      exact List.mem_append_right _ this

theorem classify_upds (keyed : List (String × SolrField))
    (fields : List DSField) (ids : List String) (news upds : List SolrField)
    (h : classify keyed fields = Except.ok (ids, news, upds)) :
    ∀ u ∈ upds, ∃ df ∈ fields, ∃ sf mt,
      dictLookup keyed df.id = some sf ∧
      field_type_map df.type = some mt ∧ mt ≠ sf.type ∧
      u = { name := sf.name, type := mt, stored := sf.stored,
            indexed := sf.indexed, extra := sf.extra } := by
  induction fields generalizing ids news upds with
  | nil =>
    intro u hu
    simp only [classify, Except.ok.injEq, Prod.mk.injEq] at h
    rw [← h.2.2] at hu
    simp at hu
  | cons df0 rest ih =>
    intro u hu
    obtain ⟨ids0, news0, upds0, hc, _, hcase⟩ :=
      classify_cons_inv keyed df0 rest ids news upds h
    rcases hcase with ⟨mt, _, _, _, hupds⟩ | ⟨sf, _, _, _, hupds⟩ |
      ⟨sf, mt, hlk, hmt, hty, _, hupds⟩
    · rw [hupds] at hu
      obtain ⟨df, hdm, rest0⟩ := ih ids0 news0 upds0 hc u hu
      exact ⟨df, List.mem_cons_of_mem _ hdm, rest0⟩
    · rw [hupds] at hu
      obtain ⟨df, hdm, rest0⟩ := ih ids0 news0 upds0 hc u hu
      exact ⟨df, List.mem_cons_of_mem _ hdm, rest0⟩
    · subst hupds
      rcases List.mem_cons.mp hu with heq | hu0
      · exact ⟨df0, List.mem_cons_self _ _, sf, mt, hlk, hmt, hty, heq⟩
      · obtain ⟨df, hdm, rest0⟩ := ih ids0 news0 upds0 hc u hu0
        exact ⟨df, List.mem_cons_of_mem _ hdm, rest0⟩

theorem classify_noop (keyed : List (String × SolrField))
    (fields : List DSField)
    (h : ∀ df ∈ fields, df.id ∉ default_solr_fields ∧
      ∃ sf, dictLookup keyed df.id = some sf ∧
        field_type_map df.type = some sf.type) :
    classify keyed fields = Except.ok (fields.map DSField.id, [], []) := by
  induction fields with
  | nil => rfl
  | cons df rest ih =>
    obtain ⟨hdef, sf, hlk, hmt⟩ := h df (List.mem_cons_self _ _)
    have ihr := ih (fun x hx => h x (List.mem_cons_of_mem _ hx))
    simp [classify, hlk, hmt, hdef, ihr]

theorem create_cases (debug : Bool) (pfx rid : String)
    (fields : List DSField) (env : CreateEnv) :
    (create debug pfx rid fields env).calls = [] ∨
    ∃ live ids news upds,
      env.schemaRead = Except.ok live ∧
      classify (buildKeyed live) fields = Except.ok (ids, news, upds) ∧
      ∀ c ∈ (create debug pfx rid fields env).calls,
        c ∈ plannedCalls (buildKeyed live) ids news upds := by
  cases h1 : connPhase debug (pfx ++ rid) env with
  | error e => exact Or.inl (by simp [create, h1])
  | ok eb =>
    cases h2 : env.schemaRead with
    | error m => exact Or.inl (by simp [create, h1, h2])
    | ok live =>
      cases h3 : classify (buildKeyed live) fields with
      | error e => exact Or.inl (by simp [create, h1, h2, h3])
      | ok triple =>
        obtain ⟨ids, news, upds⟩ := triple
        refine Or.inr ⟨live, ids, news, upds, rfl, h3, ?_⟩
        intro c hc
        have hcalls : (create debug pfx rid fields env).calls =
            (applyCalls debug (pfx ++ rid) env.mutate
              (plannedCalls (buildKeyed live) ids news upds)).1 := by
          cases hr : (applyCalls debug (pfx ++ rid) env.mutate
              (plannedCalls (buildKeyed live) ids news upds)).2 with
          | none => simp [create, h1, h2, h3, hr]
          | some e => simp [create, h1, h2, h3, hr]
        rw [hcalls] at hc
        exact applyCalls_trace_subset debug (pfx ++ rid) env.mutate _ c hc

/-- Claim C1: when some desired field whose id is not in
`default_solr_fields` has a type with no entry in `field_type_map`,
`create` raises (a `KeyError` surfaces from the classification loop, or
an earlier connection/read failure raises first) and no schema-mutation
request is ever sent. -/
theorem create_unmapped_type_fails (debug : Bool) (pfx rid : String)
    (fields : List DSField) (env : CreateEnv)
    (h : ∃ df ∈ fields, df.id ∉ default_solr_fields ∧
      field_type_map df.type = none) :
    (∃ e, (create debug pfx rid fields env).result = Except.error e) ∧
    (create debug pfx rid fields env).calls = [] := by
  obtain ⟨df, hmem, _, hnone⟩ := h
  cases h1 : connPhase debug (pfx ++ rid) env with
  | error e => exact ⟨⟨e, by simp [create, h1]⟩, by simp [create, h1]⟩
  | ok eb =>
    cases h2 : env.schemaRead with
    | error m =>
      exact ⟨⟨readFail debug eb m, by simp [create, h1, h2]⟩,
        by simp [create, h1, h2]⟩
    | ok live =>
      obtain ⟨e, he⟩ := classify_error_of_unmapped (buildKeyed live) fields
        ⟨df, hmem, hnone⟩
      exact ⟨⟨e, by simp [create, h1, h2, he]⟩, by simp [create, h1, h2, he]⟩

/-- Claim C2: once connected and classified, `create` sends all
add-field calls, then all replace-field calls, then all delete-field
calls, each independently; with every call succeeding it sends the whole
planned sequence, and on the first failing call it stops right there,
raising that field's error and leaving the already-sent calls in place
(no rollback, no further calls). -/
theorem create_apply_order_failfast (debug : Bool) (pfx rid : String)
    (fields : List DSField) (env : CreateEnv) (eb : Option String)
    (live : List SolrField) (ids : List String) (news upds : List SolrField)
    (h1 : connPhase debug (pfx ++ rid) env = Except.ok eb)
    (h2 : env.schemaRead = Except.ok live)
    (h3 : classify (buildKeyed live) fields = Except.ok (ids, news, upds)) :
    ((∀ c ∈ plannedCalls (buildKeyed live) ids news upds,
        env.mutate c = CallResult.ok) →
      (create debug pfx rid fields env).result = Except.ok PyValue.pyNone ∧
      (create debug pfx rid fields env).calls
        = plannedCalls (buildKeyed live) ids news upds) ∧
    (∀ pre c post,
      plannedCalls (buildKeyed live) ids news upds = pre ++ c :: post →
      (∀ x ∈ pre, env.mutate x = CallResult.ok) →
      env.mutate c ≠ CallResult.ok →
      (create debug pfx rid fields env).calls = pre ++ [c] ∧
      ∃ e, mutFail debug (pfx ++ rid) c (env.mutate c) = some e ∧
        (create debug pfx rid fields env).result = Except.error e) := by
  constructor
  · intro hall
    have happ := applyCalls_all_ok debug (pfx ++ rid) env.mutate _ hall
    constructor
    · simp [create, h1, h2, h3, happ]
    · simp [create, h1, h2, h3, happ]
  · intro pre c post hplan hpre hc
    obtain ⟨e, he, happ⟩ :=
      applyCalls_fail debug (pfx ++ rid) env.mutate pre c post hpre hc
    rw [← hplan] at happ
    exact ⟨by simp [create, h1, h2, h3, happ], e, he,
      by simp [create, h1, h2, h3, happ]⟩

/-- Claim C3 (amended): when every desired field has a non-default id
that is present in the live schema (as keyed by name) with mapped type
equal to the live field's type, and every non-default live field name
appears among the desired ids, `create` issues zero schema-mutation
calls and returns `None`. -/
theorem create_noop_when_synced (debug : Bool) (pfx rid : String)
    (fields : List DSField) (env : CreateEnv) (eb : Option String)
    (live : List SolrField)
    (h1 : connPhase debug (pfx ++ rid) env = Except.ok eb)
    (h2 : env.schemaRead = Except.ok live)
    (h3 : ∀ df ∈ fields, df.id ∉ default_solr_fields ∧
      ∃ sf, dictLookup (buildKeyed live) df.id = some sf ∧
        field_type_map df.type = some sf.type)
    (h4 : ∀ k ∈ (buildKeyed live).map Prod.fst, k ∈ fields.map DSField.id) :
    (create debug pfx rid fields env).calls = [] ∧
    (create debug pfx rid fields env).result = Except.ok PyValue.pyNone := by
  have hcl := classify_noop (buildKeyed live) fields h3
  have hrm : removeNames (buildKeyed live) (fields.map DSField.id) = [] := by
    rw [removeNames, List.filter_eq_nil_iff]
    intro k hk
    simpa using h4 k hk
  have hplan : plannedCalls (buildKeyed live) (fields.map DSField.id) [] []
      = [] := by
    simp [plannedCalls, hrm]
  constructor
  · simp [create, h1, h2, hcl, hplan, applyCalls]
  · simp [create, h1, h2, hcl, hplan, applyCalls]

/-- Claim C4 (amended): every call to `create` either raises or returns
`None`; no boolean change-report is ever returned (the changed/unchanged
distinction exists only as the internal branch guarding the unimplemented
reindex step). -/
theorem create_returns_none (debug : Bool) (pfx rid : String)
    (fields : List DSField) (env : CreateEnv) :
    (create debug pfx rid fields env).result = Except.ok PyValue.pyNone ∨
    ∃ e, (create debug pfx rid fields env).result = Except.error e := by
  cases h1 : connPhase debug (pfx ++ rid) env with
  | error e => exact Or.inr ⟨e, by simp [create, h1]⟩
  | ok eb =>
    cases h2 : env.schemaRead with
    | error m => exact Or.inr ⟨readFail debug eb m, by simp [create, h1, h2]⟩
    | ok live =>
      cases h3 : classify (buildKeyed live) fields with
      | error e => exact Or.inr ⟨e, by simp [create, h1, h2, h3]⟩
      | ok triple =>
        obtain ⟨ids, news, upds⟩ := triple
        cases hr : (applyCalls debug (pfx ++ rid) env.mutate
            (plannedCalls (buildKeyed live) ids news upds)).2 with
        | none => exact Or.inl (by simp [create, h1, h2, h3, hr])
        | some e => exact Or.inr ⟨e, by simp [create, h1, h2, h3, hr]⟩

/-- Claim C5 (amended): a desired field whose id is in
`default_solr_fields` is excluded only from the desired-id set used for
removals; it still goes through add/replace classification, and since
the live-schema lookup excludes default names it is always classified as
an add — so add-field requests can name a default field, while
replace-field requests never do. This theorem proves the surviving half:
no replace-field request ever names a `default_solr_fields` member. -/
theorem create_replace_never_default (debug : Bool) (pfx rid : String)
    (fields : List DSField) (env : CreateEnv) :
    ∀ f, SchemaCall.replaceField f ∈ (create debug pfx rid fields env).calls →
      f.name ∉ default_solr_fields := by
  intro f hf
  rcases create_cases debug pfx rid fields env with h0 |
    ⟨live, ids, news, upds, _, h3, hsub⟩
  · rw [h0] at hf
    simp at hf
  · have hu : f ∈ upds := by simpa [plannedCalls] using hsub _ hf
    obtain ⟨df, _, sf, mt, hlk, _, _, hfe⟩ :=
      classify_upds _ _ _ _ _ h3 f hu
    have hspec := buildKeyed_spec live _ (dictLookup_mem _ _ _ hlk)
    rw [hfe]
    simpa using hspec.1 ▸ hspec.2

/-- Claim C6: a delete-field request never names a member of
`default_solr_fields`, and never names the id of a desired field whose
id is not a default field. -/
theorem create_remove_names_safe (debug : Bool) (pfx rid : String)
    (fields : List DSField) (env : CreateEnv) :
    ∀ n, SchemaCall.deleteField n ∈ (create debug pfx rid fields env).calls →
      n ∉ default_solr_fields ∧
      ∀ df ∈ fields, df.id ∉ default_solr_fields → n ≠ df.id := by
  intro n hn
  rcases create_cases debug pfx rid fields env with h0 |
    ⟨live, ids, news, upds, _, h3, hsub⟩
  · rw [h0] at hn
    simp at hn
  · have hrm : n ∈ removeNames (buildKeyed live) ids := by
      simpa [plannedCalls] using hsub _ hn
    rw [removeNames] at hrm
    obtain ⟨hkey, hids⟩ := List.mem_filter.mp hrm
    have hnids : n ∉ ids := of_decide_eq_true hids
    constructor
    · obtain ⟨p, hp, hpn⟩ := List.mem_map.mp hkey
      have := (buildKeyed_spec live p hp).2
      rw [← hpn]
      exact this
    · intro df hdf hdef heq
      exact hnids (heq ▸ classify_ok_ids _ _ _ _ _ h3 df hdf hdef)

/-- Claim C10: every replace-field request body is the live schema field
it updates with every attribute (name, stored, indexed, and all extra
attributes returned by the schema read) unchanged and only the type
replaced by the newly mapped type. -/
theorem create_replace_preserves_attrs (debug : Bool) (pfx rid : String)
    (fields : List DSField) (env : CreateEnv) :
    ∀ f, SchemaCall.replaceField f ∈ (create debug pfx rid fields env).calls →
      ∃ live, env.schemaRead = Except.ok live ∧
        ∃ df ∈ fields, ∃ sf mt,
          dictLookup (buildKeyed live) df.id = some sf ∧
          field_type_map df.type = some mt ∧ mt ≠ sf.type ∧
          f.name = sf.name ∧ f.type = mt ∧ f.stored = sf.stored ∧
          f.indexed = sf.indexed ∧ f.extra = sf.extra := by
  intro f hf
  rcases create_cases debug pfx rid fields env with h0 |
    ⟨live, ids, news, upds, h2, h3, hsub⟩
  · rw [h0] at hf
    simp at hf
  · have hu : f ∈ upds := by simpa [plannedCalls] using hsub _ hf
    obtain ⟨df, hdm, sf, mt, hlk, hmt, hty, hfe⟩ :=
      classify_upds _ _ _ _ _ h3 f hu
    exact ⟨live, h2, df, hdm, sf, mt, hlk, hmt, hty,
      by rw [hfe], by rw [hfe], by rw [hfe], by rw [hfe], by rw [hfe]⟩

/-- A live schema holding only the three system-managed default fields,
as a freshly created core would report. -/
def liveDefaultsOnly : List SolrField :=
  [{ name := "_id", type := "text", stored := true, indexed := true,
     extra := [] },
   { name := "_version_", type := "long", stored := true, indexed := true,
     extra := [] },
   { name := "indexed_ts", type := "date", stored := true, indexed := true,
     extra := [] }]

/-- A pre-connected environment whose schema read fails with a
transport error. -/
def envPreConnectedReadErr : CreateEnv :=
  { connect0 := true, createResp := none, reconnect := false,
    schemaRead := Except.error "connection refused",
    mutate := fun _ => CallResult.ok }

/-- Claim C7: on an already-connected core whose schema read raises
`pysolr.SolrError`, the code with debug off evaluates the local
`errmsg`, which was only assigned inside the skipped core-creation
branch — so it raises `UnboundLocalError`, not the backend's
`DatastoreSearchException`; with debug on it does raise the backend
exception with the truncated transport message. -/
theorem create_read_fail_unbound_errmsg :
    (create false "datastore_" "res1" [] envPreConnectedReadErr).result
      = Except.error (PyErr.unboundLocal "errmsg") ∧
    (create true "datastore_" "res1" [] envPreConnectedReadErr).result
      = Except.error
          (PyErr.dsExc (String.take "connection refused" MAX_ERR_LEN)) := by
  constructor <;> rfl

/-- Environment for the C3 counterexample: connected, live schema holds
only default fields, every mutation call succeeds. -/
def envIdemCex : CreateEnv :=
  { connect0 := true, createResp := none, reconnect := false,
    schemaRead := Except.ok liveDefaultsOnly,
    mutate := fun _ => CallResult.ok }

/-- Claim C3 counterexample: the desired set `[{id: _id, type: text}]`
against a live schema of only default fields satisfies the claim's
modulo-default equality condition (both halves hold vacuously), yet
`create` issues an add-field call naming `_id`. -/
theorem create_idempotence_cex :
    (∀ sf ∈ liveDefaultsOnly, sf.name ∉ default_solr_fields →
      ∃ df ∈ [DSField.mk "_id" "text"], df.id = sf.name ∧
        field_type_map df.type = some sf.type) ∧
    (∀ df ∈ [DSField.mk "_id" "text"], df.id ∉ default_solr_fields →
      ∃ sf ∈ liveDefaultsOnly, sf.name = df.id) ∧
    (create false "datastore_" "res1" [DSField.mk "_id" "text"]
        envIdemCex).calls
      = [SchemaCall.addField
          { name := "_id", type := "text", stored := true, indexed := true,
            extra := [] }] ∧
    (create false "datastore_" "res1" [DSField.mk "_id" "text"]
        envIdemCex).calls ≠ [] := by
  refine ⟨by decide, by decide, by decide, by decide⟩

/-- Environment for the C4 counterexample. -/
def envBoolReturnCex : CreateEnv :=
  { connect0 := true, createResp := none, reconnect := false,
    schemaRead := Except.ok liveDefaultsOnly,
    mutate := fun _ => CallResult.ok }

/-- Claim C4 counterexample: a successful `create` that applies one
schema change (an add) still returns `None`, not a boolean — there is no
input on which the code returns `True`/`False`. -/
theorem create_bool_return_cex :
    (create false "datastore_" "res3" [DSField.mk "age" "integer"]
        envBoolReturnCex).calls ≠ [] ∧
    (create false "datastore_" "res3" [DSField.mk "age" "integer"]
        envBoolReturnCex).result = Except.ok PyValue.pyNone ∧
    (create false "datastore_" "res3" [DSField.mk "age" "integer"]
        envBoolReturnCex).result ≠ Except.ok (PyValue.pyBool true) ∧
    (create false "datastore_" "res3" [DSField.mk "age" "integer"]
        envBoolReturnCex).result ≠ Except.ok (PyValue.pyBool false) := by
  refine ⟨by decide, by decide, by decide, by decide⟩

/-- Environment for the C5 counterexample. -/
def envDefaultAddCex : CreateEnv :=
  { connect0 := true, createResp := none, reconnect := false,
    schemaRead := Except.ok liveDefaultsOnly,
    mutate := fun _ => CallResult.ok }

/-- Claim C5 counterexample: a desired field with the default id `_id`
is not excluded from diffing — since the live lookup skips default
names, it is classified as an add, and an add-field request naming the
`default_solr_fields` member `_id` is issued. -/
theorem create_default_add_cex :
    "_id" ∈ default_solr_fields ∧
    SchemaCall.addField
        { name := "_id", type := "int", stored := true, indexed := true,
          extra := [] }
      ∈ (create false "datastore_" "res2" [DSField.mk "_id" "integer"]
          envDefaultAddCex).calls := by
  refine ⟨by decide, by decide⟩

/-- Environment for the C1 witness: a field with the unmapped type
`jsonb`. -/
def envUnmappedW : CreateEnv :=
  { connect0 := true, createResp := none, reconnect := false,
    schemaRead := Except.ok liveDefaultsOnly,
    mutate := fun _ => CallResult.ok }

theorem create_unmapped_type_fails_witness :
    (∃ df ∈ [DSField.mk "geom" "jsonb"], df.id ∉ default_solr_fields ∧
      field_type_map df.type = none) ∧
    ((∃ e, (create false "datastore_" "res4" [DSField.mk "geom" "jsonb"]
        envUnmappedW).result = Except.error e) ∧
      (create false "datastore_" "res4" [DSField.mk "geom" "jsonb"]
        envUnmappedW).calls = []) :=
  ⟨by decide,
   create_unmapped_type_fails false "datastore_" "res4"
    [DSField.mk "geom" "jsonb"] envUnmappedW (by decide)⟩

/-- Environment for the C2 witness: the add of field `b` fails with a
transport error; everything else succeeds. -/
def envOrderW : CreateEnv :=
  { connect0 := true, createResp := none, reconnect := false,
    schemaRead := Except.ok liveDefaultsOnly,
    mutate := fun c =>
      match c with
      | SchemaCall.addField f =>
        if f.name = "b" then CallResult.solrError "boom" else CallResult.ok
      | _ => CallResult.ok }

theorem create_apply_order_failfast_witness :
    (create false "datastore_" "res5"
        [DSField.mk "a" "text", DSField.mk "b" "text"] envOrderW).calls
      = [SchemaCall.addField
          { name := "a", type := "text", stored := true, indexed := true,
            extra := [] },
         SchemaCall.addField
          { name := "b", type := "text", stored := true, indexed := true,
            extra := [] }] ∧
    (create false "datastore_" "res5"
        [DSField.mk "a" "text", DSField.mk "b" "text"] envOrderW).result
      = Except.error
          (PyErr.dsExc "Could not add field b to SOLR Schema datastore_res5") := by
  have h := (create_apply_order_failfast false "datastore_" "res5"
    [DSField.mk "a" "text", DSField.mk "b" "text"] envOrderW none
    liveDefaultsOnly ["a", "b"]
    [{ name := "a", type := "text", stored := true, indexed := true,
       extra := [] },
     { name := "b", type := "text", stored := true, indexed := true,
       extra := [] }] [] rfl rfl rfl).2
    [SchemaCall.addField
      { name := "a", type := "text", stored := true, indexed := true,
        extra := [] }]
    (SchemaCall.addField
      { name := "b", type := "text", stored := true, indexed := true,
        extra := [] }) [] (by decide) (by decide) (by decide)
  obtain ⟨hcalls, e, he, hres⟩ := h
  have hstep : mutFail false ("datastore_" ++ "res5")
      (SchemaCall.addField
        { name := "b", type := "text", stored := true, indexed := true,
          extra := [] })
      (envOrderW.mutate
        (SchemaCall.addField
          { name := "b", type := "text", stored := true, indexed := true,
            extra := [] }))
      = some (PyErr.dsExc
          "Could not add field b to SOLR Schema datastore_res5") := by decide
  rw [hstep] at he
  injection he with hee
  exact ⟨by simpa using hcalls, by rw [hres, hee]⟩

/-- Live schema for the C3 witness: the default fields plus one
non-default field `a : int`. -/
def liveSyncedW : List SolrField :=
  liveDefaultsOnly ++
    [{ name := "a", type := "int", stored := true, indexed := true,
       extra := [] }]

/-- Environment for the C3 witness: one live non-default field `a : int`
and a matching desired field `a : integer`. -/
def envSyncedW : CreateEnv :=
  { connect0 := true, createResp := none, reconnect := false,
    schemaRead := Except.ok liveSyncedW,
    mutate := fun _ => CallResult.ok }

theorem create_noop_when_synced_witness :
    (create false "datastore_" "res6" [DSField.mk "a" "integer"]
        envSyncedW).calls = [] ∧
    (create false "datastore_" "res6" [DSField.mk "a" "integer"]
        envSyncedW).result = Except.ok PyValue.pyNone :=
  create_noop_when_synced false "datastore_" "res6" [DSField.mk "a" "integer"]
    envSyncedW none liveSyncedW rfl rfl (by decide) (by decide)

/-- Environment for the C5 witness: a live non-default field whose type
differs from the desired mapped type, forcing one replace-field call. -/
def envReplaceW : CreateEnv :=
  { connect0 := true, createResp := none, reconnect := false,
    schemaRead := Except.ok
      [{ name := "a", type := "int", stored := true, indexed := true,
         extra := [] }],
    mutate := fun _ => CallResult.ok }

theorem create_replace_never_default_witness :
    SchemaCall.replaceField
        { name := "a", type := "text", stored := true, indexed := true,
          extra := [] }
      ∈ (create false "datastore_" "res7" [DSField.mk "a" "text"]
          envReplaceW).calls ∧
    ({ name := "a", type := "text", stored := true, indexed := true,
       extra := [] } : SolrField).name ∉ default_solr_fields :=
  ⟨by decide,
   create_replace_never_default false "datastore_" "res7"
    [DSField.mk "a" "text"] envReplaceW
    { name := "a", type := "text", stored := true, indexed := true,
      extra := [] } (by decide)⟩

/-- Environment for the C6 witness: the live field `legacy` is neither
default nor desired, so one delete-field call is issued for it. -/
def envRemoveW : CreateEnv :=
  { connect0 := true, createResp := none, reconnect := false,
    schemaRead := Except.ok
      [{ name := "legacy", type := "int", stored := true, indexed := true,
         extra := [] },
       { name := "keep", type := "text", stored := true, indexed := true,
         extra := [] }],
    mutate := fun _ => CallResult.ok }

theorem create_remove_names_safe_witness :
    SchemaCall.deleteField "legacy"
      ∈ (create false "datastore_" "res8" [DSField.mk "keep" "text"]
          envRemoveW).calls ∧
    ("legacy" ∉ default_solr_fields ∧
      ∀ df ∈ [DSField.mk "keep" "text"], df.id ∉ default_solr_fields →
        "legacy" ≠ df.id) :=
  ⟨by decide,
   create_remove_names_safe false "datastore_" "res8"
    [DSField.mk "keep" "text"] envRemoveW "legacy" (by decide)⟩

/-- Environment for the C10 witness: the live field carries extra
attributes beyond name/type/stored/indexed. -/
def envAttrsW : CreateEnv :=
  { connect0 := true, createResp := none, reconnect := false,
    schemaRead := Except.ok
      [{ name := "a", type := "int", stored := true, indexed := false,
         extra := [("docValues", "true"), ("multiValued", "false")] }],
    mutate := fun _ => CallResult.ok }

theorem create_replace_preserves_attrs_witness :
    SchemaCall.replaceField
        { name := "a", type := "text", stored := true, indexed := false,
          extra := [("docValues", "true"), ("multiValued", "false")] }
      ∈ (create false "datastore_" "res9" [DSField.mk "a" "text"]
          envAttrsW).calls ∧
    (∃ live, envAttrsW.schemaRead = Except.ok live ∧
      ∃ df ∈ [DSField.mk "a" "text"], ∃ sf mt,
        dictLookup (buildKeyed live) df.id = some sf ∧
        field_type_map df.type = some mt ∧ mt ≠ sf.type ∧
        ({ name := "a", type := "text", stored := true, indexed := false,
           extra := [("docValues", "true"), ("multiValued", "false")] }
          : SolrField).name = sf.name ∧
        ({ name := "a", type := "text", stored := true, indexed := false,
           extra := [("docValues", "true"), ("multiValued", "false")] }
          : SolrField).type = mt ∧
        ({ name := "a", type := "text", stored := true, indexed := false,
           extra := [("docValues", "true"), ("multiValued", "false")] }
          : SolrField).stored = sf.stored ∧
        ({ name := "a", type := "text", stored := true, indexed := false,
           extra := [("docValues", "true"), ("multiValued", "false")] }
          : SolrField).indexed = sf.indexed ∧
        ({ name := "a", type := "text", stored := true, indexed := false,
           extra := [("docValues", "true"), ("multiValued", "false")] }
          : SolrField).extra = sf.extra) :=
  ⟨by decide,
   create_replace_preserves_attrs false "datastore_" "res9"
    [DSField.mk "a" "text"] envAttrsW
    { name := "a", type := "text", stored := true, indexed := false,
      extra := [("docValues", "true"), ("multiValued", "false")] }
    (by decide)⟩

theorem upsertLoop_all_ok (debug : Bool) (core : String)
    (addResult : Nat → Option String) (recs : List Rec) (k : Nat)
    (h : ∀ i, i < recs.length → addResult (k + i) = none) :
    upsertLoop debug core addResult k recs
      = (recs.map (fun r => DocCall.add r false), none) := by
  induction recs generalizing k with
  | nil => rfl
  | cons r rest ih =>
    have h0 : addResult k = none := by simpa using h 0 (by simp)
    have hr : ∀ i, i < rest.length → addResult (k + 1 + i) = none := by
      intro i hi
      rw [show k + 1 + i = k + (i + 1) by omega]
      exact h (i + 1) (by simpa using Nat.succ_lt_succ hi)
    simp [upsertLoop, h0, ih (k + 1) hr]

theorem upsertLoop_fail (debug : Bool) (core : String)
    (addResult : Nat → Option String) (recs : List Rec) (k j : Nat)
    (m : String) (hj : j < recs.length) (hfail : addResult (k + j) = some m)
    (hok : ∀ i, i < j → addResult (k + i) = none) :
    upsertLoop debug core addResult k recs
      = ((recs.take (j + 1)).map (fun r => DocCall.add r false),
         some (PyErr.dsExc
           (if debug then m.take MAX_ERR_LEN
            else "Failed to index records for " ++ core))) := by
  induction recs generalizing k j with
  | nil => simp at hj
  | cons r rest ih =>
    cases j with
    | zero =>
      have h0 : addResult k = some m := by simpa using hfail
      simp [upsertLoop, h0]
    | succ j0 =>
      have h0 : addResult k = none := by
        simpa using hok 0 (Nat.succ_pos j0)
      have hfail0 : addResult (k + 1 + j0) = some m := by
        rw [show k + 1 + j0 = k + (j0 + 1) by omega]
        exact hfail
      have hok0 : ∀ i, i < j0 → addResult (k + 1 + i) = none := by
        intro i hi
        rw [show k + 1 + i = k + (i + 1) by omega]
        exact hok (i + 1) (Nat.succ_lt_succ hi)
      have hj0 : j0 < rest.length := by
        simpa using Nat.lt_of_succ_lt_succ hj
      simp [upsertLoop, h0, ih (k + 1) j0 hj0 hfail0 hok0]

/-- Claim C8: with a usable connection and a non-empty record list,
`upsert` adds each record in one individual `conn.add` call with
`commit=False`, in list order; the first failing add aborts the
remaining records with an error and no commit is sent; when every add
succeeds, exactly one deferred commit with `waitSearcher=False` follows
the adds. -/
theorem upsert_individual_adds (debug : Bool) (pfx rid : String)
    (records : List Rec) (env : UpsertEnv)
    (h0 : env.connect0 = true) (hne : records ≠ []) :
    ((∀ i, i < records.length → env.addResult i = none) →
      (upsert debug pfx rid records env).docCalls
        = records.map (fun r => DocCall.add r false)
          ++ [DocCall.commitCall false] ∧
      (upsert debug pfx rid records env).result = Except.ok PyValue.pyNone) ∧
    (∀ j m, j < records.length → env.addResult j = some m →
      (∀ i, i < j → env.addResult i = none) →
      (upsert debug pfx rid records env).docCalls
        = (records.take (j + 1)).map (fun r => DocCall.add r false) ∧
      (upsert debug pfx rid records env).result
        = Except.error (PyErr.dsExc
            (if debug then m.take MAX_ERR_LEN
             else "Failed to index records for " ++ (pfx ++ rid))) ∧
      ∀ w, DocCall.commitCall w ∉ (upsert debug pfx rid records env).docCalls) := by
  have hconn : upsertConnPhase debug pfx rid env = (Except.ok (), []) := by
    simp [upsertConnPhase, h0]
  constructor
  · intro hall
    have hloop := upsertLoop_all_ok debug (pfx ++ rid) env.addResult records 0
      (fun i hi => by simpa using hall i hi)
    constructor
    · simp [upsert, hconn, hne, hloop]
    · simp [upsert, hconn, hne, hloop]
  · intro j m hj hm hok
    have hloop := upsertLoop_fail debug (pfx ++ rid) env.addResult records 0 j
      m hj (by simpa using hm) (fun i hi => by simpa using hok i hi)
    have hdocs : (upsert debug pfx rid records env).docCalls
        = (records.take (j + 1)).map (fun r => DocCall.add r false) := by
      simp [upsert, hconn, hne, hloop]
    refine ⟨hdocs, ?_, ?_⟩
    · simp [upsert, hconn, hne, hloop]
    · intro w hmem
      rw [hdocs] at hmem
      rcases List.mem_map.mp hmem with ⟨r, _, hr⟩
      exact DocCall.noConfusion hr

theorem deleteLoop_all_ok (debug : Bool) (core : String)
    (delResult : Nat → Option String) (fs : List (String × String)) (k : Nat)
    (h : ∀ i, i < fs.length → delResult (k + i) = none) :
    deleteLoop debug core delResult k fs
      = (fs.map (fun p => DocCall.deleteQ (p.1 ++ ":" ++ p.2) false), none) := by
  induction fs generalizing k with
  | nil => rfl
  | cons p rest ih =>
    obtain ⟨key, value⟩ := p
    have h0 : delResult k = none := by simpa using h 0 (by simp)
    have hr : ∀ i, i < rest.length → delResult (k + 1 + i) = none := by
      intro i hi
      rw [show k + 1 + i = k + (i + 1) by omega]
      exact h (i + 1) (by simpa using Nat.succ_lt_succ hi)
    simp [deleteLoop, h0, ih (k + 1) hr]

theorem deleteLoop_fail (debug : Bool) (core : String)
    (delResult : Nat → Option String) (fs : List (String × String))
    (k j : Nat) (m : String) (hj : j < fs.length)
    (hfail : delResult (k + j) = some m)
    (hok : ∀ i, i < j → delResult (k + i) = none) :
    ∃ e, deleteLoop debug core delResult k fs
      = ((fs.take (j + 1)).map
          (fun p => DocCall.deleteQ (p.1 ++ ":" ++ p.2) false), some e) := by
  induction fs generalizing k j with
  | nil => simp at hj
  | cons p rest ih =>
    obtain ⟨key, value⟩ := p
    cases j with
    | zero =>
      have h0 : delResult k = some m := by simpa using hfail
      exact ⟨PyErr.dsExc
        (if debug then m.take MAX_ERR_LEN
         else "Could not delete records " ++ key ++ "," ++ value
           ++ " in SOLR core " ++ core), by simp [deleteLoop, h0]⟩
    | succ j0 =>
      have h0 : delResult k = none := by
        simpa using hok 0 (Nat.succ_pos j0)
      have hfail0 : delResult (k + 1 + j0) = some m := by
        rw [show k + 1 + j0 = k + (j0 + 1) by omega]
        exact hfail
      have hok0 : ∀ i, i < j0 → delResult (k + 1 + i) = none := by
        intro i hi
        rw [show k + 1 + i = k + (i + 1) by omega]
        exact hok (i + 1) (Nat.succ_lt_succ hi)
      have hj0 : j0 < rest.length := by
        simpa using Nat.lt_of_succ_lt_succ hj
      obtain ⟨e, he⟩ := ih (k + 1) j0 hj0 hfail0 hok0
      exact ⟨e, by simp [deleteLoop, h0, he]⟩

theorem deleteLoop_calls_shape (debug : Bool) (core : String)
    (delResult : Nat → Option String) :
    ∀ (k : Nat) (fs : List (String × String)),
      ∀ c ∈ (deleteLoop debug core delResult k fs).1,
        ∃ q, c = DocCall.deleteQ q false := by
  intro k fs
  induction fs generalizing k with
  | nil => simp [deleteLoop]
  | cons p rest ih =>
    obtain ⟨key, value⟩ := p
    intro c hc
    cases h0 : delResult k with
    | none =>
      simp only [deleteLoop, h0] at hc
      rcases List.mem_cons.mp hc with h | h
      · exact ⟨key ++ ":" ++ value, h⟩
      · exact ih (k + 1) c h
    | some m =>
      simp only [deleteLoop, h0, List.mem_singleton] at hc
      exact ⟨key ++ ":" ++ value, hc⟩

/-- Claim C9: with a connection and a non-empty filters mapping,
`delete` issues exactly one delete-by-query call `key:value` per filter
pair, each with `commit=False`; every call on this path is such a
deletion (in particular no commit is ever issued); with all deletions
succeeding one call per pair is sent in mapping order, and a failing
deletion aborts the remaining filters, leaving earlier deletions
applied. -/
theorem delete_filters_no_commit (debug : Bool) (pfx rid : String)
    (filters : List (String × String)) (env : DeleteEnv)
    (h0 : env.connect0 = true) (hne : filters ≠ []) :
    (∀ c ∈ (delete debug pfx rid filters env).docCalls,
      ∃ q, c = DocCall.deleteQ q false) ∧
    ((∀ i, i < filters.length → env.delResult i = none) →
      (delete debug pfx rid filters env).docCalls
        = filters.map (fun p => DocCall.deleteQ (p.1 ++ ":" ++ p.2) false) ∧
      (delete debug pfx rid filters env).result = Except.ok PyValue.pyNone) ∧
    (∀ j m, j < filters.length → env.delResult j = some m →
      (∀ i, i < j → env.delResult i = none) →
      (delete debug pfx rid filters env).docCalls
        = (filters.take (j + 1)).map
            (fun p => DocCall.deleteQ (p.1 ++ ":" ++ p.2) false) ∧
      ∃ e, (delete debug pfx rid filters env).result = Except.error e) := by
  have hdocs : (delete debug pfx rid filters env).docCalls
      = (deleteLoop debug (pfx ++ rid) env.delResult 0 filters).1 := by
    cases ht : (deleteLoop debug (pfx ++ rid) env.delResult 0 filters).2 with
    | none => simp [delete, h0, hne, ht]
    | some e => simp [delete, h0, hne, ht]
  refine ⟨?_, ?_, ?_⟩
  · intro c hc
    rw [hdocs] at hc
    exact deleteLoop_calls_shape debug (pfx ++ rid) env.delResult 0 filters c hc
  · intro hall
    have hloop := deleteLoop_all_ok debug (pfx ++ rid) env.delResult filters 0
      (fun i hi => by simpa using hall i hi)
    constructor
    · simp [delete, h0, hne, hloop]
    · simp [delete, h0, hne, hloop]
  · intro j m hj hm hok
    obtain ⟨e, hloop⟩ := deleteLoop_fail debug (pfx ++ rid) env.delResult
      filters 0 j m hj (by simpa using hm) (fun i hi => by simpa using hok i hi)
    exact ⟨by simp [delete, h0, hne, hloop],
      e, by simp [delete, h0, hne, hloop]⟩

/-- Environment for the C8 witness: connected, every add succeeds. -/
def envUpsertW : UpsertEnv :=
  { connect0 := true, dsFields := [],
    createEnv :=
      { connect0 := true, createResp := none, reconnect := false,
        schemaRead := Except.ok [], mutate := fun _ => CallResult.ok },
    reconnect := false, addResult := fun _ => none }

theorem upsert_individual_adds_witness :
    (upsert false "datastore_" "res10" ["r1", "r2"] envUpsertW).docCalls
      = [DocCall.add "r1" false, DocCall.add "r2" false,
         DocCall.commitCall false] ∧
    (upsert false "datastore_" "res10" ["r1", "r2"] envUpsertW).result
      = Except.ok PyValue.pyNone := by
  have h := (upsert_individual_adds false "datastore_" "res10" ["r1", "r2"]
    envUpsertW rfl (by decide)).1 (fun i _ => rfl)
  exact ⟨by simpa using h.1, h.2⟩

/-- Environment for the C9 witness: connected, every deletion succeeds. -/
def envDeleteW : DeleteEnv :=
  { connect0 := true, wipeResult := none, unloadResp := none,
    delResult := fun _ => none }

theorem delete_filters_no_commit_witness :
    (delete false "datastore_" "res11" [("dept", "finance"), ("year", "2020")]
        envDeleteW).docCalls
      = [DocCall.deleteQ "dept:finance" false,
         DocCall.deleteQ "year:2020" false] ∧
    (delete false "datastore_" "res11" [("dept", "finance"), ("year", "2020")]
        envDeleteW).result = Except.ok PyValue.pyNone := by
  have h := (delete_filters_no_commit false "datastore_" "res11"
    [("dept", "finance"), ("year", "2020")] envDeleteW rfl (by decide)).2.1
    (fun i _ => rfl)
  exact ⟨by simpa using h.1, h.2⟩

example : field_type_map "integer" = some "int" := rfl

example : classify [] [⟨"age", "integer"⟩] =
    Except.ok (["age"],
      [{ name := "age", type := "int", stored := true, indexed := true,
         extra := [] }], []) := rfl

example : classify [] [⟨"age", "jsonb"⟩] =
    Except.error (PyErr.keyError "jsonb") := rfl

end DatastoreSolrBackend
